import Mathlib

/-
Verification of the Stock-Alert SignalR client (Go) against its specification.

Shallow embedding conventions:
* Go strings are modelled as `List Char` (the data handled here is ASCII).
* Go `interface` arguments seen by the dispatcher are modelled by `GoVal`:
  either a string or some other runtime value.
* Side effects (handler invocations, channel sends, transport sends) are
  modelled as explicit effect lists returned by the embedded functions.
* External libraries (brotli, encoding/base64, encoding/json) are not part of
  this repository; the decoder pipeline is parameterised over their behaviour
  via the `Codec` structure, while the pipeline's own control flow is
  translated from `src/dataFeed/pkg/signalr/processor.go`.
-/

namespace StockAlert

/-- A Go `interface` value as inspected by the dispatcher: the code only
distinguishes string arguments (via type assertion) from everything else. -/
inductive GoVal where
  | str (s : List Char)
  | other
deriving DecidableEq, Repr

/-- The `Data` field of `Message`: either the raw argument slice (catch-all
and custom-handler paths) or a single string (well-known handler paths). -/
inductive MsgData where
  | ofArgs (args : List GoVal)
  | ofStr (s : List Char)
deriving DecidableEq, Repr

/-- Type `Message` from `src/unnamed/part_010`: method name plus data. -/
structure Message where
  method : List Char
  data : MsgData
deriving DecidableEq, Repr

/-- ASCII lower-casing of one character, as Go `strings.ToLower` acts on the
ASCII method names used by this client. -/
def toLowerChar (c : Char) : Char :=
  if 'A' ≤ c ∧ c ≤ 'Z' then Char.ofNat (c.toNat + 32) else c

/-- Go `strings.ToLower` on an ASCII string. -/
def toLower (s : List Char) : List Char := s.map toLowerChar

/-- One delivery action performed while handling a server call in
`MessageReceiver.Receive` (src/unnamed/part_010, lines 492-561):
invocation of a registered custom handler, a channel send made by one of the
two dedicated well-known handlers, or the catch-all channel send. -/
inductive Delivery where
  | customHandler (msg : Message)
  | sharePrice (msg : Message)
  | marketStatus (msg : Message)
  | catchAll (msg : Message)
deriving DecidableEq, Repr

/-- Handler `MessageReceiver.SharePriceUpdated` (lines 563-577): logs, then performs
one send of a `Message` with method `"SharePriceUpdated"` on `messagesChan`. -/
def sharePriceUpdated (data : List Char) : List Delivery :=
  [.sharePrice ⟨"SharePriceUpdated".toList, .ofStr data⟩]

/-- Handler `MessageReceiver.MarketStatusUpdated__DSE_` (lines 579-593): logs, then
performs one send with method `"MarketStatusUpdated^^DSE~"`. -/
def marketStatusUpdatedDSE (data : List Char) : List Delivery :=
  [.marketStatus ⟨"MarketStatusUpdated^^DSE~".toList, .ofStr data⟩]

/-- Dispatcher entry point `MessageReceiver.Receive` (src/unnamed/part_010, lines 492-561).
`handlers` is the key set of the registered custom-handler map (keys are
stored lower-cased by `RegisterHandler`).  The function checks the registered
handlers first, then the two well-known method names (after lower-casing,
and only when the first argument is a string), and otherwise sends an
`InboundMessage` on the catch-all channel. -/
def receive (handlers : List (List Char)) (method : List Char) (args : List GoVal) :
    List Delivery :=
  if toLower method ∈ handlers then
    [.customHandler ⟨method, .ofArgs args⟩]
  else if toLower method = "sharepriceupdated".toList then
    match args with
    | .str s :: _ => sharePriceUpdated s
    | _ => [.catchAll ⟨method, .ofArgs args⟩]
  else if toLower method = "marketstatusupdated^^dse~".toList then
    match args with
    | .str s :: _ => marketStatusUpdatedDSE s
    | _ => [.catchAll ⟨method, .ofArgs args⟩]
  else
    [.catchAll ⟨method, .ofArgs args⟩]

/-- Claim C1: every non-heartbeat server call handed to
`MessageReceiver.Receive` produces exactly one delivery, and the destination
is chosen in the order: registered custom handler for the lower-cased method
name, then the dedicated well-known handlers, then the catch-all channel. -/
theorem receive_exactly_one_delivery (handlers : List (List Char))
    (method : List Char) (args : List GoVal)
    (hnotping : toLower method ≠ "ping".toList) :
    (receive handlers method args).length = 1
    ∧ (toLower method ∈ handlers →
        receive handlers method args = [.customHandler ⟨method, .ofArgs args⟩])
    ∧ (toLower method ∉ handlers → ∀ s rest,
        toLower method = "sharepriceupdated".toList → args = .str s :: rest →
        receive handlers method args = sharePriceUpdated s)
    ∧ (toLower method ∉ handlers → ∀ s rest,
        toLower method = "marketstatusupdated^^dse~".toList → args = .str s :: rest →
        receive handlers method args = marketStatusUpdatedDSE s)
    ∧ (toLower method ∉ handlers →
        toLower method ≠ "sharepriceupdated".toList →
        toLower method ≠ "marketstatusupdated^^dse~".toList →
        receive handlers method args = [.catchAll ⟨method, .ofArgs args⟩]) := by
  refine ⟨?_, ?_, ?_, ?_, ?_⟩
  · by_cases hmem : toLower method ∈ handlers
    · simp [receive, hmem]
    · cases args with
      | nil =>
          simp only [receive, if_neg hmem]
          split_ifs <;> rfl
      | cons a rest =>
          cases a with
          | str s =>
              simp only [receive, if_neg hmem]
              split_ifs <;> rfl
          | other =>
              simp only [receive, if_neg hmem]
              split_ifs <;> rfl
  · intro hmem
    simp [receive, hmem]
  · intro hmem s rest hsp hargs
    subst hargs
    unfold receive
    rw [if_neg hmem, if_pos hsp]
  · intro hmem s rest hms hargs
    subst hargs
    have hne : ("marketstatusupdated^^dse~".toList : List Char) ≠
        "sharepriceupdated".toList := by decide
    unfold receive
    rw [if_neg hmem, if_neg (hms ▸ hne), if_pos hms]
  · intro hmem hsp hms
    unfold receive
    rw [if_neg hmem, if_neg hsp, if_neg hms]

/-- Witness for C1 at a concrete non-heartbeat call: an unknown method with
no registered handler goes to the catch-all channel, exactly once. -/
theorem receive_exactly_one_delivery_witness :
    (receive [] "FooBar".toList [.other]).length = 1
    ∧ (toLower "FooBar".toList ∈ ([] : List (List Char)) →
        receive [] "FooBar".toList [.other] =
          [.customHandler ⟨"FooBar".toList, .ofArgs [.other]⟩])
    ∧ (toLower "FooBar".toList ∉ ([] : List (List Char)) → ∀ s rest,
        toLower "FooBar".toList = "sharepriceupdated".toList →
        [GoVal.other] = .str s :: rest →
        receive [] "FooBar".toList [.other] = sharePriceUpdated s)
    ∧ (toLower "FooBar".toList ∉ ([] : List (List Char)) → ∀ s rest,
        toLower "FooBar".toList = "marketstatusupdated^^dse~".toList →
        [GoVal.other] = .str s :: rest →
        receive [] "FooBar".toList [.other] = marketStatusUpdatedDSE s)
    ∧ (toLower "FooBar".toList ∉ ([] : List (List Char)) →
        toLower "FooBar".toList ≠ "sharepriceupdated".toList →
        toLower "FooBar".toList ≠ "marketstatusupdated^^dse~".toList →
        receive [] "FooBar".toList [.other] =
          [.catchAll ⟨"FooBar".toList, .ofArgs [.other]⟩]) :=
  receive_exactly_one_delivery [] "FooBar".toList [.other] (by decide)

/-- Enum `ConnectionStatus` (src/unnamed/part_010, lines 326-337). -/
inductive ConnectionStatus where
  | disconnected
  | connecting
  | connected
  | reconnecting
deriving DecidableEq, Repr

/-- The connection-management fields of `Client` that the lifecycle functions
read and write: the status, the retry counter and its bound, the occupancy of
the capacity-1 `reconnectChan`, and whether the shared context is canceled. -/
structure ConnState where
  connStatus : ConnectionStatus
  reconnectAttempts : Nat
  maxReconnectAttempts : Nat
  pendingReconnect : Bool
  ctxCanceled : Bool
deriving DecidableEq, Repr

/-- The state of a fresh client from `NewClient` (lines 645-673):
disconnected, zero attempts, bound 20, empty reconnect channel. -/
def initialConnState : ConnState :=
  ⟨.disconnected, 0, 20, false, false⟩

/-- The events that mutate `connStatus` in src/unnamed/part_010:
the guard/entry of `Connect` (lines 782-792), `handleConnected` (710-726),
`handleDisconnected` (728-756), `handleReconnecting` (758-765), the entry of
`attemptReconnect` up to its status write (936-961), `handleConnectionError`
(860-866), and `Close` (1047-1072). -/
inductive ConnEvent where
  | connectEntry
  | handshakeOk
  | disconnectDetected
  | serverReconnecting
  | retryAttempt
  | connectFailed
  | closeCall
deriving DecidableEq, Repr

/-- One mutex-protected status update of the client, translated function by
function from src/unnamed/part_010. -/
def connStep (s : ConnState) (e : ConnEvent) : ConnState :=
  match e with
  | .connectEntry =>
      if s.connStatus = .connecting ∨ s.connStatus = .connected then s
      else { s with connStatus := .connecting }
  | .handshakeOk =>
      { s with connStatus := .connected, reconnectAttempts := 0 }
  | .disconnectDetected =>
      if s.connStatus = .disconnected then s
      else
        let s1 := { s with connStatus := ConnectionStatus.disconnected }
        if s1.ctxCanceled then s1 else { s1 with pendingReconnect := true }
  | .serverReconnecting =>
      { s with connStatus := .reconnecting }
  | .retryAttempt =>
      if s.connStatus = .connected then s
      else if s.maxReconnectAttempts ≤ s.reconnectAttempts then s
      else { s with connStatus := .reconnecting,
                    reconnectAttempts := s.reconnectAttempts + 1 }
  | .connectFailed =>
      { s with connStatus := .disconnected }
  | .closeCall =>
      { s with connStatus := .disconnected, ctxCanceled := true }

/-- The five transitions claim C2 asserts, written from the spec's words
(refinement comparison): Disconnected→Connecting on Connect,
Connecting→Connected on handshake, Connected→Reconnecting on detected
failure, Reconnecting→Connecting on a retry's Connect call, and a move to
Disconnected only on explicit Close. -/
def claimedEdge (s : ConnectionStatus) (e : ConnEvent) (t : ConnectionStatus) : Prop :=
  (s = .disconnected ∧ e = .connectEntry ∧ t = .connecting) ∨
  (s = .connecting ∧ e = .handshakeOk ∧ t = .connected) ∨
  (s = .connected ∧ e = .disconnectDetected ∧ t = .reconnecting) ∨
  (s = .reconnecting ∧ e = .connectEntry ∧ t = .connecting) ∨
  (e = .closeCall ∧ t = .disconnected)

instance (s : ConnectionStatus) (e : ConnEvent) (t : ConnectionStatus) :
    Decidable (claimedEdge s e t) := by
  unfold claimedEdge; infer_instance

/-- Claim C2 as stated: every status change of the client is one of the five
claimed edges. -/
def connClaimedTransitionsOnly : Prop :=
  ∀ (s : ConnState) (e : ConnEvent),
    (connStep s e).connStatus ≠ s.connStatus →
    claimedEdge s.connStatus e (connStep s e).connStatus

/-- Claim C2 counterexample: from Connected, a detected failure
(`handleDisconnected`) moves the client straight to Disconnected — not to
Reconnecting, and not via `Close` — so the change is outside the five claimed
edges. -/
theorem connClaimedTransitionsOnly_counterexample : ¬ connClaimedTransitionsOnly := by
  intro h
  have hchange :
      (connStep ⟨.connected, 0, 20, false, false⟩ .disconnectDetected).connStatus ≠
        ConnectionStatus.connected := by decide
  have := h ⟨.connected, 0, 20, false, false⟩ .disconnectDetected hchange
  revert this
  decide

/-- The status changes the code actually performs, by event. -/
def codeEdge (s : ConnState) (e : ConnEvent) (t : ConnectionStatus) : Prop :=
  (e = .connectEntry ∧
    (s.connStatus = .disconnected ∨ s.connStatus = .reconnecting) ∧ t = .connecting) ∨
  (e = .handshakeOk ∧ t = .connected) ∨
  (e = .disconnectDetected ∧ s.connStatus ≠ .disconnected ∧ t = .disconnected) ∨
  (e = .serverReconnecting ∧ t = .reconnecting) ∨
  (e = .retryAttempt ∧ s.connStatus ≠ .connected ∧
    s.reconnectAttempts < s.maxReconnectAttempts ∧ t = .reconnecting) ∨
  ((e = .connectFailed ∨ e = .closeCall) ∧ t = .disconnected)

/-- Claim C2, amended: the client's status is a single `ConnectionStatus`
value, and every status change is one of the code's edges:
Disconnected/Reconnecting→Connecting on Connect entry, any→Connected on a
successful handshake, any non-Disconnected→Disconnected on a detected
failure, any→Reconnecting on a server reconnecting event or on a retry
attempt with budget remaining, and any→Disconnected on a connection error or
on explicit Close. -/
theorem connStep_edges (s : ConnState) (e : ConnEvent)
    (hchange : (connStep s e).connStatus ≠ s.connStatus) :
    codeEdge s e (connStep s e).connStatus := by
  cases e with
  | connectEntry =>
      by_cases hc : s.connStatus = .connecting ∨ s.connStatus = .connected
      · exact absurd (by simp [connStep, hc]) hchange
      · push_neg at hc
        have hs : s.connStatus = .disconnected ∨ s.connStatus = .reconnecting := by
          cases h : s.connStatus <;> simp_all
        simp [codeEdge, connStep, hs, not_or.mpr ⟨hc.1, hc.2⟩]
  | handshakeOk => simp [codeEdge, connStep]
  | disconnectDetected =>
      by_cases hd : s.connStatus = .disconnected
      · exact absurd (by simp [connStep, hd]) hchange
      · by_cases hctx : s.ctxCanceled <;>
          simp [codeEdge, connStep, hd, hctx]
  | serverReconnecting => simp [codeEdge, connStep]
  | retryAttempt =>
      by_cases hc : s.connStatus = .connected
      · exact absurd (by simp [connStep, hc]) hchange
      · by_cases hbudget : s.maxReconnectAttempts ≤ s.reconnectAttempts
        · exact absurd (by simp [connStep, hc, hbudget]) hchange
        · simp [codeEdge, connStep, hc, hbudget, Nat.lt_of_not_le hbudget]
  | connectFailed => simp [codeEdge, connStep]
  | closeCall => simp [codeEdge, connStep]

/-- Witness for the amended C2 at a concrete input: a detected failure while
Connected changes the status, and the change is a code edge. -/
theorem connStep_edges_witness :
    codeEdge ⟨.connected, 0, 20, false, false⟩ .disconnectDetected
      (connStep ⟨.connected, 0, 20, false, false⟩ .disconnectDetected).connStatus :=
  connStep_edges ⟨.connected, 0, 20, false, false⟩ .disconnectDetected (by decide)

/-- The backoff delay computed by `Client.attemptReconnect`
(src/unnamed/part_010, lines 952-958), in nanoseconds:
`backoff := time.Duration(float64(baseReconnectDelay) * (1.5 * float64(attempt-1)))`,
then capped at `maxReconnectDelay`.  For the client's delay values
(multiples of 1 s, attempts bounded by 20) the float64 computation is exact
and equals `base * 3 * (attempt - 1) / 2` in integer arithmetic. -/
def attemptBackoffNs (base maxDelay : Nat) (attempt : Nat) : Nat :=
  min maxDelay (base * 3 * (attempt - 1) / 2)

/-- The backoff formula claim C3 states (and the spec's reconnect-loop
text): `min(maxDelay, baseDelay * 1.5 ^ (attempt - 1))`, modelled from the
spec over the rationals. -/
def claimedBackoffNs (base maxDelay : ℚ) (attempt : Nat) : ℚ :=
  min maxDelay (base * (3 / 2) ^ (attempt - 1))

/-- Value of `baseReconnectDelay` from `NewClient`: 2 s in nanoseconds. -/
def baseReconnectDelayNs : Nat := 2000000000

/-- Value of `maxReconnectDelay` from `NewClient`: 2 min in nanoseconds. -/
def maxReconnectDelayNs : Nat := 120000000000

/-- Claim C3 is wrong about the code, and the code contradicts its own
`attemptReconnect` doc comment ("tries to reconnect with exponential
backoff"): the multiplier is the linear `1.5 * (attempt-1)`, not the
exponential `1.5 ^ (attempt-1)`.  With the default delays the code sleeps
0 s before attempt 1 and 6 s before attempt 3, where the claim (and the
comment's exponential intent) requires 2 s and 4.5 s. -/
theorem attemptBackoff_linear_not_exponential :
    attemptBackoffNs baseReconnectDelayNs maxReconnectDelayNs 1 = 0
    ∧ claimedBackoffNs 2000000000 120000000000 1 = 2000000000
    ∧ attemptBackoffNs baseReconnectDelayNs maxReconnectDelayNs 2 = 3000000000
    ∧ claimedBackoffNs 2000000000 120000000000 2 = 3000000000
    ∧ attemptBackoffNs baseReconnectDelayNs maxReconnectDelayNs 3 = 6000000000
    ∧ claimedBackoffNs 2000000000 120000000000 3 = 4500000000 := by
  refine ⟨?_, ?_, ?_, ?_, ?_, ?_⟩
  · norm_num [attemptBackoffNs, baseReconnectDelayNs, maxReconnectDelayNs]
  · norm_num [claimedBackoffNs]
  · norm_num [attemptBackoffNs, baseReconnectDelayNs, maxReconnectDelayNs]
  · norm_num [claimedBackoffNs]
  · norm_num [attemptBackoffNs, baseReconnectDelayNs, maxReconnectDelayNs]
  · norm_num [claimedBackoffNs]

/-- The outcome of the transport calls made inside `Client.Connect`:
`signalr.NewHTTPConnection` may fail, `signalr.NewClient` may fail, or both
succeed. -/
inductive TransportResult where
  | httpConnFail
  | clientCreateFail
  | success
deriving DecidableEq, Repr

/-- Function `Client.Connect` (src/unnamed/part_010, lines 780-858) restricted to its
effect on `ConnState` and its returned error (`true` means a non-nil error).
Eager-return when already Connecting/Connected; otherwise status goes to
Connecting, and on a transport failure `handleConnectionError` (860-866) sets
it to Disconnected — touching neither `reconnectChan` nor the retry counter —
while on success `handleConnected` runs. -/
def connect (s : ConnState) (t : TransportResult) : ConnState × Bool :=
  if s.connStatus = .connecting ∨ s.connStatus = .connected then (s, false)
  else
    let s1 := { s with connStatus := ConnectionStatus.connecting }
    match t with
    | .httpConnFail => ({ s1 with connStatus := .disconnected }, true)
    | .clientCreateFail => ({ s1 with connStatus := .disconnected }, true)
    | .success =>
        ({ s1 with connStatus := .connected, reconnectAttempts := 0 }, false)

/-- Claim C7 as stated: a failed `Connect` returns the error, sets
Disconnected, and queues a reconnect signal for the background loop. -/
def connectFailureQueuesRetry : Prop :=
  ∀ (s : ConnState) (t : TransportResult),
    s.connStatus = .disconnected → t ≠ .success →
    (connect s t).2 = true
    ∧ (connect s t).1.connStatus = .disconnected
    ∧ (connect s t).1.pendingReconnect = true

/-- Claim C7 counterexample: a failed first `Connect` from the fresh client
state leaves `reconnectChan` empty — `handleConnectionError` never posts a
reconnect signal (and the monitor loop is only started after a successful
`Start`), so no background retry takes over. -/
theorem connectFailureQueuesRetry_counterexample : ¬ connectFailureQueuesRetry := by
  intro h
  have := h initialConnState .httpConnFail (by decide) (by decide)
  revert this
  decide

/-- Claim C7, amended: a transport-open or client-creation error in
`Connect` is returned synchronously and the status is set to Disconnected,
but no reconnect signal is queued: the capacity-1 reconnect channel is left
exactly as it was, so the background retry loop is not triggered by the
failed call. -/
theorem connect_failure_sync_error_no_signal (s : ConnState) (t : TransportResult)
    (hdisc : s.connStatus = .disconnected) (hfail : t ≠ .success) :
    (connect s t).2 = true
    ∧ (connect s t).1.connStatus = .disconnected
    ∧ (connect s t).1.pendingReconnect = s.pendingReconnect := by
  have hguard : ¬ (s.connStatus = .connecting ∨ s.connStatus = .connected) := by
    rw [hdisc]; decide
  cases t with
  | httpConnFail => simp [connect, hguard]
  | clientCreateFail => simp [connect, hguard]
  | success => exact absurd rfl hfail

/-- Witness for the amended C7: the fresh client state with a failing HTTP
connection. -/
theorem connect_failure_sync_error_no_signal_witness :
    (connect initialConnState .httpConnFail).2 = true
    ∧ (connect initialConnState .httpConnFail).1.connStatus = .disconnected
    ∧ (connect initialConnState .httpConnFail).1.pendingReconnect =
        initialConnState.pendingReconnect :=
  connect_failure_sync_error_no_signal initialConnState .httpConnFail
    (by decide) (by decide)

/-- The client's `subscriptions` map (`map[string][]interface` keyed by
method name), modelled as an association list with distinct keys, in map
iteration order. -/
abbrev SubMap : Type := List (List Char × List GoVal)

/-- Go map assignment `m[k] = v`: replace the entry if the key is present,
otherwise add it. -/
def mapStore : SubMap → List Char → List GoVal → SubMap
  | [], k, v => [(k, v)]
  | p :: rest, k, v =>
      if p.1 = k then (k, v) :: rest else p :: mapStore rest k v

/-- Go map read `m[k]`. -/
def mapLookup : SubMap → List Char → Option (List GoVal)
  | [], _ => none
  | p :: rest, k => if p.1 = k then some p.2 else mapLookup rest k

/-- Function `Client.Subscribe` (src/unnamed/part_010, lines 422-446) together with
`storeSubscription` (449-458): if the status is not Connected it returns an
error, touching nothing; otherwise it stores the subscription (a copy of the
argument slice, last write wins) and performs one transport `Send`.
Result: (returned a non-nil error, transport sends performed, new map). -/
def subscribe (st : ConnectionStatus) (subs : SubMap)
    (method : List Char) (args : List GoVal) :
    Bool × List (List Char × List GoVal) × SubMap :=
  if st ≠ .connected then (true, [], subs)
  else (false, [(method, args)], mapStore subs method args)

/-- Reading back the key just written by a Go map assignment. -/
theorem mapLookup_mapStore_self (subs : SubMap) (k : List Char) (v : List GoVal) :
    mapLookup (mapStore subs k v) k = some v := by
  induction subs with
  | nil => simp [mapStore, mapLookup]
  | cons p rest ih =>
      by_cases hp : p.1 = k
      · simp [mapStore, mapLookup, hp]
      · simp only [mapStore, if_neg hp, mapLookup]
        exact ih

/-- A Go map assignment leaves every other key's entry unchanged. -/
theorem mapLookup_mapStore_other (subs : SubMap) (k j : List Char)
    (v : List GoVal) (hne : j ≠ k) :
    mapLookup (mapStore subs k v) j = mapLookup subs j := by
  have hkj : ¬ (k = j) := fun h => hne h.symm
  induction subs with
  | nil => simp [mapStore, mapLookup, hkj]
  | cons p rest ih =>
      by_cases hp : p.1 = k
      · simp only [mapStore, if_pos hp, mapLookup, if_neg hkj]
        rw [if_neg (hp ▸ hkj)]
      · simp only [mapStore, if_neg hp, mapLookup]
        by_cases hpj : p.1 = j
        · rw [if_pos hpj, if_pos hpj]
        · rw [if_neg hpj, if_neg hpj]
          exact ih

/-- Claim C10: `Subscribe` while not Connected fails and leaves the stored
subscription map unchanged; `Subscribe` while Connected succeeds, records
(or overwrites) its entry, and leaves every other key's entry unchanged. -/
theorem subscribe_only_when_connected (st : ConnectionStatus) (subs : SubMap)
    (method : List Char) (args : List GoVal) :
    (st ≠ .connected →
      subscribe st subs method args = (true, [], subs))
    ∧ (st = .connected →
      (subscribe st subs method args).1 = false
      ∧ mapLookup (subscribe st subs method args).2.2 method = some args
      ∧ ∀ k, k ≠ method →
          mapLookup (subscribe st subs method args).2.2 k = mapLookup subs k) := by
  constructor
  · intro hne
    simp [subscribe, hne]
  · intro hconn
    subst hconn
    have hc : ¬ (ConnectionStatus.connected ≠ ConnectionStatus.connected) :=
      fun hh => hh rfl
    refine ⟨?_, ?_, ?_⟩
    · simp only [subscribe, if_neg hc]
    · simp only [subscribe, if_neg hc]
      exact mapLookup_mapStore_self subs method args
    · intro k hk
      simp only [subscribe, if_neg hc]
      exact mapLookup_mapStore_other subs method k args hk

/-- Witness for C10: a disconnected `Subscribe` fails without storing; a
connected `Subscribe` succeeds, stores its entry, and leaves the other
stored key untouched. -/
theorem subscribe_only_when_connected_witness :
    subscribe .disconnected [("k".toList, [])] "m".toList [.other] =
      (true, [], [("k".toList, [])])
    ∧ (subscribe .connected [("k".toList, [])] "m".toList [.other]).1 = false
    ∧ mapLookup
        (subscribe .connected [("k".toList, [])] "m".toList [.other]).2.2
        "m".toList = some [.other]
    ∧ mapLookup
        (subscribe .connected [("k".toList, [])] "m".toList [.other]).2.2
        "k".toList = mapLookup [("k".toList, [])] "k".toList :=
  ⟨(subscribe_only_when_connected .disconnected [("k".toList, [])]
      "m".toList [.other]).1 (by decide),
   ((subscribe_only_when_connected .connected [("k".toList, [])]
      "m".toList [.other]).2 rfl).1,
   ((subscribe_only_when_connected .connected [("k".toList, [])]
      "m".toList [.other]).2 rfl).2.1,
   ((subscribe_only_when_connected .connected [("k".toList, [])]
      "m".toList [.other]).2 rfl).2.2 "k".toList (by decide)⟩

/-- Function `Client.Subscribe` (src/unnamed/part_010, lines 422-446) as
invoked on a goroutine whose `subscriptionsMu` read-lock state is
`readLockHeld`.  The status check runs first and returns an error before any
lock is touched.  Otherwise `storeSubscription` (449-458) acquires
`c.subscriptionsMu.Lock()`; Go's `sync.RWMutex` is not reentrant, so when the
calling goroutine itself already holds `RLock`, `Lock()` waits for that
reader forever.  `none` models this deadlock, which happens before the
goroutine performing `c.client.Send` is spawned — so no transport `Send`
occurs on that path. -/
def subscribeUnderLock (readLockHeld : Bool) (st : ConnectionStatus)
    (subs : SubMap) (method : List Char) (args : List GoVal) :
    Option (Bool × List (List Char × List GoVal) × SubMap) :=
  if st ≠ .connected then some (true, [], subs)
  else if readLockHeld then none
  else some (false, [(method, args)], mapStore subs method args)

/-- With no read lock held — the situation of a user-code `Subscribe` call —
the lock-aware model agrees with the plain `subscribe` model. -/
theorem subscribeUnderLock_no_lock (st : ConnectionStatus) (subs : SubMap)
    (method : List Char) (args : List GoVal) :
    subscribeUnderLock false st subs method args =
      some (subscribe st subs method args) := by
  by_cases h : st = ConnectionStatus.connected <;>
    simp [subscribeUnderLock, subscribe, h]

/-- Function `Client.reapplySubscriptions` (src/unnamed/part_010, lines
996-1009): the loop over the stored entries runs entirely under
`c.subscriptionsMu.RLock()` (taken on line 998 and held to the end), and each
iteration calls `c.Subscribe`, i.e. `subscribeUnderLock true`.  A `Subscribe`
error is logged and the loop continues; a deadlocked `Subscribe` never
returns, so the whole replay hangs (`none`), having performed the sends
accumulated so far — necessarily none, since the deadlock is inside
`storeSubscription`, before the `Send` goroutine starts. -/
def reapplyLockAux (st : ConnectionStatus) :
    List (List Char × List GoVal) → SubMap →
      Option (List (List Char × List GoVal) × SubMap)
  | [], subs => some ([], subs)
  | e :: rest, subs =>
      match subscribeUnderLock true st subs e.1 e.2 with
      | none => none
      | some r =>
          match reapplyLockAux st rest r.2.2 with
          | none => none
          | some rr => some (r.2.1 ++ rr.1, rr.2)

/-- Entry point of the replay: iterate `reapplyLockAux` over the stored map
under the read lock. -/
def reapplySubscriptions (st : ConnectionStatus) (subs : SubMap) :
    Option (List (List Char × List GoVal) × SubMap) :=
  reapplyLockAux st subs subs

/-- Function `Client.handleConnected` (src/unnamed/part_010, lines 710-726):
records whether the client was Reconnecting, sets Connected and resets the
retry counter, and starts the replay task only in the reconnect case (the
task then runs with the status already Connected).  The second component is
the transport sends the replay performs: `some []` when no replay runs, and
`none` when the replay task deadlocks without completing. -/
def handleConnected (s : ConnState) (subs : SubMap) :
    ConnState × Option (List (List Char × List GoVal)) :=
  let wasReconnecting := s.connStatus = ConnectionStatus.reconnecting
  let s1 := { s with connStatus := ConnectionStatus.connected,
                     reconnectAttempts := 0 }
  if wasReconnecting then
    (s1, (reapplySubscriptions s1.connStatus subs).map Prod.fst)
  else (s1, some [])

/-- Claim C4 fails on the code: a post-failure reconnect with any nonempty
subscription map performs zero transport sends — `reapplySubscriptions`
holds `subscriptionsMu.RLock` while `Subscribe`'s `storeSubscription`
acquires `subscriptionsMu.Lock` on the same goroutine, a self-deadlock on
the very first entry, before any `Send` — instead of the one `Send` per
stored entry that the claim (and the spec's replay contract) require.  A
first successful Connect indeed performs no replay. -/
theorem reconnect_replay_deadlocks_before_any_send
    (s1 s2 : ConnState) (subs : SubMap)
    (hrec : s1.connStatus = .reconnecting)
    (hne : subs ≠ [])
    (hfirst : s2.connStatus = .connecting) :
    (handleConnected s1 subs).2 = none
    ∧ (handleConnected s2 subs).2 = some [] := by
  constructor
  · simp only [handleConnected, hrec, if_pos rfl]
    match subs, hne with
    | e :: rest, _ =>
        have hc : ¬ (ConnectionStatus.connected ≠ ConnectionStatus.connected) :=
          fun hh => hh rfl
        simp [reapplySubscriptions, reapplyLockAux, subscribeUnderLock, hc]
  · have : ¬ (s2.connStatus = ConnectionStatus.reconnecting) := by
      rw [hfirst]; decide
    simp [handleConnected, this]

/-- Witness for the C4 divergence: reconnecting with the one subscription
the client actually stores (`SubscribeToMarketStatusUpdatedEvent`, `"DSE"`)
deadlocks the replay with zero sends; a first connect replays nothing. -/
theorem reconnect_replay_deadlocks_before_any_send_witness :
    (handleConnected ⟨.reconnecting, 3, 20, false, false⟩
        [("SubscribeToMarketStatusUpdatedEvent".toList,
          [.str "DSE".toList])]).2 = none
    ∧ (handleConnected ⟨.connecting, 0, 20, false, false⟩
        [("SubscribeToMarketStatusUpdatedEvent".toList,
          [.str "DSE".toList])]).2 = some [] :=
  reconnect_replay_deadlocks_before_any_send
    ⟨.reconnecting, 3, 20, false, false⟩ ⟨.connecting, 0, 20, false, false⟩
    [("SubscribeToMarketStatusUpdatedEvent".toList, [.str "DSE".toList])]
    rfl (by simp) rfl

/-- The parts of the client that `Client.Close` touches: the shared
cancellation, the status, the transport handle, and the outbound message
channel.  `chanCloseCount` counts successful `close(messagesChan)`
executions; in Go, `close` on an already-closed channel panics. -/
structure CloseState where
  ctxCanceled : Bool
  connStatus : ConnectionStatus
  clientPresent : Bool
  chanClosed : Bool
  chanCloseCount : Nat
  panicked : Bool
deriving DecidableEq, Repr

/-- Function `Client.Close` (src/unnamed/part_010, lines 1047-1072): cancels the
context, sets Disconnected, stops and clears the transport client if
present, then runs `close(c.messagesChan)` unconditionally — which panics
when the channel is already closed. -/
def closeClient (s : CloseState) : CloseState :=
  let s1 := { s with ctxCanceled := true,
                     connStatus := ConnectionStatus.disconnected,
                     clientPresent := false }
  if s1.chanClosed then { s1 with panicked := true }
  else { s1 with chanClosed := true, chanCloseCount := s1.chanCloseCount + 1 }

/-- A connected client before any `Close` call. -/
def runningCloseState : CloseState :=
  ⟨false, .connected, true, false, 0, false⟩

/-- Claim C5 as stated: calling `Close` twice is safe — the second call
neither panics nor fails — and the channel is closed exactly once. -/
def closeTwiceIsSafe : Prop :=
  (closeClient (closeClient runningCloseState)).panicked = false
  ∧ (closeClient (closeClient runningCloseState)).chanCloseCount = 1

/-- Claim C5 counterexample: the second `Close` reaches
`close(c.messagesChan)` with the channel already closed and panics — the
code has no guard (no `sync.Once`, no closed flag). -/
theorem closeTwiceIsSafe_counterexample : ¬ closeTwiceIsSafe := by
  intro h
  exact absurd h.1 (by decide)

/-- Claim C5, amended: a single `Close` is safe — it cancels the shared
context, sets Disconnected, and closes the message channel exactly once
without panicking — but a second `Close` panics on closing the
already-closed channel (while still not closing it a second time). -/
theorem close_once_safe_twice_panics (s : CloseState)
    (hopen : s.chanClosed = false) (hcalm : s.panicked = false) :
    (closeClient s).ctxCanceled = true
    ∧ (closeClient s).connStatus = .disconnected
    ∧ (closeClient s).chanClosed = true
    ∧ (closeClient s).chanCloseCount = s.chanCloseCount + 1
    ∧ (closeClient s).panicked = false
    ∧ (closeClient (closeClient s)).panicked = true
    ∧ (closeClient (closeClient s)).chanCloseCount = s.chanCloseCount + 1 := by
  simp [closeClient, hopen, hcalm]

/-- Witness for the amended C5 from the running client state. -/
theorem close_once_safe_twice_panics_witness :
    (closeClient runningCloseState).ctxCanceled = true
    ∧ (closeClient runningCloseState).connStatus = .disconnected
    ∧ (closeClient runningCloseState).chanClosed = true
    ∧ (closeClient runningCloseState).chanCloseCount =
        runningCloseState.chanCloseCount + 1
    ∧ (closeClient runningCloseState).panicked = false
    ∧ (closeClient (closeClient runningCloseState)).panicked = true
    ∧ (closeClient (closeClient runningCloseState)).chanCloseCount =
        runningCloseState.chanCloseCount + 1 :=
  close_once_safe_twice_panics runningCloseState rfl rfl

/-- The result of a Go channel send on a channel whose buffer holds `buf`
when no receiver is ready: either the value is appended to the buffer, or
the send cannot proceed. -/
inductive ChanSendOutcome where
  | delivered (buf : List Message)
  | blocked
deriving DecidableEq, Repr

/-- A plain (blocking) Go channel send `ch <- m` on a channel of capacity
`cap`: appends to the buffer if there is room, otherwise suspends the
sending goroutine. -/
def goBlockingSend (cap : Nat) (buf : List Message) (m : Message) :
    ChanSendOutcome :=
  if buf.length < cap then .delivered (buf ++ [m]) else .blocked

/-- Channel `messagesChan` is created with capacity 100 (`NewClient`,
src/unnamed/part_010, line 647). -/
def messagesChanCap : Nat := 100

/-- The channel-level effect of one `Delivery` performed by `Receive`:
all three channel destinations (lines 557, 573, 589) are plain blocking
sends on `messagesChan`; a registered custom handler is a synchronous
function call, not a channel operation. -/
def deliverEffect (buf : List Message) : Delivery → ChanSendOutcome
  | .customHandler _ => .delivered buf
  | .sharePrice m => goBlockingSend messagesChanCap buf m
  | .marketStatus m => goBlockingSend messagesChanCap buf m
  | .catchAll m => goBlockingSend messagesChanCap buf m

/-- Claim C6 as stated: the dispatcher's delivery to the outbound channel
never blocks — with a full buffer the message is dropped rather than the
send suspending. -/
def dispatchNeverBlocks : Prop :=
  ∀ (handlers : List (List Char)) (method : List Char) (args : List GoVal)
    (buf : List Message),
    ChanSendOutcome.blocked ∉ (receive handlers method args).map (deliverEffect buf)

/-- Claim C6 counterexample: a catch-all message arriving while the
100-slot buffer is full leaves `Receive` suspended on the channel send —
the code uses a plain send, not a `select` with `default`, so nothing is
dropped and the transport's calling context blocks. -/
theorem dispatchNeverBlocks_counterexample : ¬ dispatchNeverBlocks := by
  intro h
  have := h [] "FooBar".toList [.other]
    (List.replicate 100 ⟨"FooBar".toList, .ofArgs [.other]⟩)
  revert this
  decide

/-- Claim C6, amended: the dispatcher's channel deliveries are plain
blocking sends: while the buffer has room the message is enqueued at the
tail, and once the buffer holds 100 messages a catch-all delivery blocks
the calling context — it is never dropped. -/
theorem dispatch_blocks_when_full (handlers : List (List Char))
    (method : List Char) (args : List GoVal) (buf : List Message)
    (hmem : toLower method ∉ handlers)
    (hsp : toLower method ≠ "sharepriceupdated".toList)
    (hms : toLower method ≠ "marketstatusupdated^^dse~".toList) :
    (buf.length < messagesChanCap →
      (receive handlers method args).map (deliverEffect buf) =
        [.delivered (buf ++ [⟨method, .ofArgs args⟩])])
    ∧ (buf.length = messagesChanCap →
      (receive handlers method args).map (deliverEffect buf) = [.blocked]) := by
  have hrecv : receive handlers method args = [.catchAll ⟨method, .ofArgs args⟩] := by
    unfold receive
    rw [if_neg hmem, if_neg hsp, if_neg hms]
  constructor
  · intro hroom
    rw [hrecv]
    simp [deliverEffect, goBlockingSend, hroom]
  · intro hfull
    rw [hrecv]
    simp [deliverEffect, goBlockingSend, hfull]

/-- Witness for the amended C6: an unhandled method with an empty buffer is
enqueued; with a full buffer of 100 messages the send blocks. -/
theorem dispatch_blocks_when_full_witness :
    (receive [] "FooBar".toList [.other]).map (deliverEffect []) =
      [.delivered ([] ++ [⟨"FooBar".toList, .ofArgs [.other]⟩])]
    ∧ (receive [] "FooBar".toList [.other]).map
        (deliverEffect
          (List.replicate 100 ⟨"FooBar".toList, .ofArgs [.other]⟩)) =
      [.blocked] :=
  ⟨(dispatch_blocks_when_full [] "FooBar".toList [.other] []
      (by decide) (by decide) (by decide)).1 (by decide),
   (dispatch_blocks_when_full [] "FooBar".toList [.other]
      (List.replicate 100 ⟨"FooBar".toList, .ofArgs [.other]⟩)
      (by decide) (by decide) (by decide)).2 (by simp [messagesChanCap])⟩

/-- Go `strings.Split(s, "~")`: splits on every tilde, keeping empty
fields; the result is never empty. -/
def splitOnTilde : List Char → List (List Char)
  | [] => [[]]
  | c :: rest =>
      if c = '~' then [] :: splitOnTilde rest
      else
        match splitOnTilde rest with
        | [] => [[c]]
        | f :: fs => (c :: f) :: fs

/-- Joining fields with the tilde delimiter (the inverse construction of a
tilde-delimited record). -/
def joinTilde : List (List Char) → List Char
  | [] => []
  | [f] => f
  | f :: g :: fs => f ++ '~' :: joinTilde (g :: fs)

theorem splitOnTilde_ne_nil (s : List Char) : splitOnTilde s ≠ [] := by
  cases s with
  | nil => simp [splitOnTilde]
  | cons c rest =>
      by_cases hc : c = '~'
      · simp [splitOnTilde, hc]
      · simp only [splitOnTilde, if_neg hc]
        cases splitOnTilde rest <;> simp

theorem splitOnTilde_no_tilde (f : List Char) (hf : '~' ∉ f) :
    splitOnTilde f = [f] := by
  induction f with
  | nil => rfl
  | cons c rest ih =>
      have hc : ¬ (c = '~') := fun h => hf (h ▸ List.mem_cons_self c rest)
      have hrest : '~' ∉ rest := fun h => hf (List.mem_cons_of_mem c h)
      simp only [splitOnTilde, if_neg hc, ih hrest]

theorem splitOnTilde_append_tilde (f t : List Char) (hf : '~' ∉ f) :
    splitOnTilde (f ++ '~' :: t) = f :: splitOnTilde t := by
  induction f with
  | nil => simp [splitOnTilde]
  | cons c rest ih =>
      have hc : ¬ (c = '~') := fun h => hf (h ▸ List.mem_cons_self c rest)
      have hrest : '~' ∉ rest := fun h => hf (List.mem_cons_of_mem c h)
      simp only [List.cons_append, splitOnTilde, if_neg hc]
      rw [show rest.append ('~' :: t) = rest ++ '~' :: t from rfl, ih hrest]

/-- Splitting on tilde inverts joining, for a nonempty field list with
tilde-free fields. -/
theorem splitOnTilde_joinTilde (fields : List (List Char))
    (hne : fields ≠ [])
    (hft : ∀ f ∈ fields, '~' ∉ f) :
    splitOnTilde (joinTilde fields) = fields := by
  induction fields with
  | nil => exact absurd rfl hne
  | cons f rest ih =>
      cases rest with
      | nil =>
          simp only [joinTilde]
          exact splitOnTilde_no_tilde f (hft f (List.mem_cons_self f []))
      | cons g gs =>
          have hf : '~' ∉ f := hft f (List.mem_cons_self f (g :: gs))
          have hrest : ∀ x ∈ g :: gs, '~' ∉ x :=
            fun x hx => hft x (List.mem_cons_of_mem f hx)
          simp only [joinTilde, splitOnTilde_append_tilde f _ hf]
          rw [ih (by simp) hrest]

/-- The tilde delimiter occurs in the join of two or more fields. -/
theorem tilde_mem_joinTilde (f g : List Char) (fs : List (List Char)) :
    '~' ∈ joinTilde (f :: g :: fs) := by
  simp [joinTilde]

/-- The behaviour of the external libraries the decoder pipeline calls:
brotli decompression (`github.com/andybalholm/brotli`), standard base64
(`encoding/base64`), and JSON (`encoding/json`).  These packages are not
part of this repository, so the pipeline is stated for an arbitrary codec;
byte slices are identified with character lists, as the Go code converts
freely between `string` and `[]byte`.
* `brotliDec` is `io.ReadAll(brotli.NewReader(...))`: `none` models a
  decompression error.
* `b64Enc` / `b64Dec` are `base64.StdEncoding` encode and decode.
* `jsonObj` is `json.Unmarshal` into `map[string]interface` followed by the
  string assertion on the `"data"` field: `none` = not a JSON object,
  `some none` = a JSON object without a string `"data"` field,
  `some (some d)` = a JSON object whose `"data"` field is the string `d`.
* `jsonAny` is whether `json.Unmarshal` into a bare interface succeeds. -/
structure Codec where
  brotliDec : List Char → Option (List Char)
  b64Enc : List Char → List Char
  b64Dec : List Char → Option (List Char)
  jsonObj : List Char → Option (Option (List Char))
  jsonAny : List Char → Bool

/-- What the decoder pipeline parsed out of a payload: a tilde-delimited
field sequence, or a JSON document.  `none` (in `Option ParsedPayload`)
means the pipeline fell through every strategy and parsed nothing. -/
inductive ParsedPayload where
  | fields (fs : List (List Char))
  | jsonDoc
deriving DecidableEq, Repr

/-- Function `MessageProcessor.processDecompressedData`
(src/dataFeed/pkg/signalr/processor.go, lines 159-177): if the data
contains `~`, split it into fields; otherwise try a JSON parse; otherwise
nothing is parsed. -/
def processDecompressedData (codec : Codec) (data : List Char) :
    Option ParsedPayload :=
  if '~' ∈ data then some (.fields (splitOnTilde data))
  else if codec.jsonAny data then some .jsonDoc
  else none

/-- Function `MessageProcessor.decompressAndProcess`
(src/dataFeed/pkg/signalr/processor.go, lines 113-137): strategy 1 is
direct brotli decompression; strategy 2 is base64 decode then brotli
(falling through if either step fails); strategy 3 processes the data
as-is, but only when it contains `~`.  When all three fail the function
returns having processed nothing. -/
def decompressAndProcess (codec : Codec) (data : List Char) :
    Option ParsedPayload :=
  match codec.brotliDec data with
  | some decompressed => processDecompressedData codec decompressed
  | none =>
      match (codec.b64Dec data).bind codec.brotliDec with
      | some decompressed => processDecompressedData codec decompressed
      | none =>
          if '~' ∈ data then processDecompressedData codec data else none

/-- Function `MessageProcessor.processDataString`
(src/dataFeed/pkg/signalr/processor.go, lines 97-110): first try to parse
the payload as a JSON object; if it has a string `"data"` field, decompress
that field; if it parses but has no such field, return with just the parsed
object; if it is not JSON, run the decompression pipeline on the raw
payload. -/
def processDataString (codec : Codec) (dataStr : List Char) :
    Option ParsedPayload :=
  match codec.jsonObj dataStr with
  | some (some dataField) => decompressAndProcess codec dataField
  | some none => some .jsonDoc
  | none => decompressAndProcess codec dataStr

/-- Claim C8 as stated: a payload that fails every strategy — not a JSON
object with a string data field, not brotli-decompressible, not
base64+brotli-decompressible, and containing no tilde — is still delivered
in some best-available form rather than dropped. -/
def decodeFailureStillDelivers : Prop :=
  ∀ (codec : Codec) (data : List Char),
    (∀ d, codec.jsonObj data ≠ some (some d)) →
    codec.brotliDec data = none →
    (∀ b, codec.b64Dec data = some b → codec.brotliDec b = none) →
    '~' ∉ data →
    processDataString codec data ≠ none

/-- A codec on which every decode strategy fails, as happens for a payload
the real libraries cannot decode. -/
def failingCodec : Codec :=
  ⟨fun _ => none, id, fun _ => none, fun _ => none, fun _ => false⟩

/-- Claim C8 counterexample: with every strategy failing on the payload
`"hello"`, `processDataString` reaches the end of `decompressAndProcess`
without processing anything — the payload is silently discarded, not
retained in opaque-string form. -/
theorem decodeFailureStillDelivers_counterexample :
    ¬ decodeFailureStillDelivers := by
  intro h
  exact h failingCodec "hello".toList
    (fun d hd => by simp [failingCodec] at hd)
    rfl
    (fun b hb => by simp [failingCodec] at hb)
    (by decide)
    rfl

/-- Claim C8, amended: decode failure is non-fatal (no error or panic: the
function just returns), but a payload failing every strategy is silently
dropped — `processDecompressedData` is never reached and nothing is
delivered, in opaque-string form or otherwise. -/
theorem decode_failure_drops_payload (codec : Codec) (data : List Char)
    (hjson : codec.jsonObj data = none)
    (hbr : codec.brotliDec data = none)
    (hb64 : ∀ b, codec.b64Dec data = some b → codec.brotliDec b = none)
    (htilde : '~' ∉ data) :
    processDataString codec data = none := by
  have hbind : (codec.b64Dec data).bind codec.brotliDec = none := by
    cases hd : codec.b64Dec data with
    | none => rfl
    | some b => simp [Option.bind, hb64 b hd]
  simp only [processDataString, hjson, decompressAndProcess, hbr, hbind,
    if_neg htilde]

/-- Witness for the amended C8: the all-failing codec on `"hello"`. -/
theorem decode_failure_drops_payload_witness :
    processDataString failingCodec "hello".toList = none :=
  decode_failure_drops_payload failingCodec "hello".toList rfl rfl
    (fun b hb => by simp [failingCodec] at hb) (by decide)

/-- Claim C9: feeding the brotli-compressed, base64-encoded form of a
tilde-delimited field sequence into the decoder yields the original ordered
field sequence, and a plain JSON document input comes out as a parsed JSON
structure.  `c` is the compressed form of the joined fields (brotli
decompresses it back), base64 decode inverts base64 encode on it, and the
base64 text itself is not a valid brotli stream. -/
theorem decoder_pipeline_roundtrip (codec : Codec)
    (fields : List (List Char)) (c j : List Char)
    (hlen : 2 ≤ fields.length)
    (hft : ∀ f ∈ fields, '~' ∉ f)
    (hcomp : codec.brotliDec c = some (joinTilde fields))
    (hb64 : codec.b64Dec (codec.b64Enc c) = some c)
    (hraw : codec.brotliDec (codec.b64Enc c) = none)
    (hjson : codec.jsonObj j = some none) :
    decompressAndProcess codec (codec.b64Enc c) = some (.fields fields)
    ∧ processDataString codec j = some .jsonDoc := by
  constructor
  · match fields, hlen with
    | f :: g :: fs, _ =>
        have hmem : '~' ∈ joinTilde (f :: g :: fs) := tilde_mem_joinTilde f g fs
        simp only [decompressAndProcess, hraw, hb64, Option.bind, hcomp,
          processDecompressedData, if_pos hmem,
          splitOnTilde_joinTilde (f :: g :: fs) (by simp) hft]
  · simp only [processDataString, hjson]

/-- A concrete codec witnessing the round-trip hypotheses: `"X"` is the
compressed form of `"a~b"`, base64 is modelled by prefixing `B`, and `"J"`
is the JSON document. -/
def roundtripCodec : Codec :=
  ⟨fun l => if l = "X".toList then some "a~b".toList else none,
   fun l => 'B' :: l,
   fun l => match l with
            | 'B' :: r => some r
            | _ => none,
   fun l => if l = "J".toList then some none else none,
   fun _ => false⟩

/-- Witness for C9 at the concrete round-trip codec: decoding the encoded
compressed record recovers the fields `a`, `b`, and the JSON document input
parses. -/
theorem decoder_pipeline_roundtrip_witness :
    decompressAndProcess roundtripCodec (roundtripCodec.b64Enc "X".toList) =
      some (.fields ["a".toList, "b".toList])
    ∧ processDataString roundtripCodec "J".toList = some .jsonDoc := by
  have h := decoder_pipeline_roundtrip roundtripCodec
    ["a".toList, "b".toList] "X".toList "J".toList
    (by decide) (by decide) (by decide) (by decide) (by decide) (by decide)
  exact ⟨h.1, h.2⟩

end StockAlert
